import Mathlib

/-!
Formal model of the network-security repeated game in
`game_theory_network.py`: the payoff table, the round-execution engine
(`NetworkSecurityGame.play_round` / `run_game`) and the three decision
policies (`PassiveDefender`, `RandomAttacker`, `EnhancedTitForTat`).

The shared random source (`random.random()` / `random.choice`) is modelled
as an explicit stream of rational draws together with a counter of draws
consumed so far; every policy returns its chosen action together with the
number of draws it consumed.  A `KeyError` escaping from the payoff-table
lookup is modelled by an error result that carries the session state at the
moment the exception is raised (in the source the lookup on line 24 happens
before any score update or history append).
-/

namespace GameTheoryNetwork

/-- The defender action `'防御'` (Defend). -/
def defend : String := "防御"

/-- The defender action `'不防御'` (DoNotDefend). -/
def noDefend : String := "不防御"

/-- The attacker action `'攻击'` (Attack). -/
def attack : String := "攻击"

/-- The attacker action `'不攻击'` (DoNotAttack). -/
def noAttack : String := "不攻击"

/-- One entry of `self.history`: the dict
`\x7b'round': …, 'decisions': (a, b), 'payoffs': (pa, pb)\x7d`
appended by `play_round`. -/
structure RoundRecord where
  round : Nat
  decisions : String × String
  payoffs : Int × Int
deriving Repr, DecidableEq

/-- A stream of uniform random draws; `r n` is the n-th value produced by
the shared random source. -/
def RandSrc : Type := Nat → ℚ

/-- `shiftSrc r k` is the random source as seen after `k` draws have
already been consumed. -/
def shiftSrc (r : RandSrc) (k : Nat) : RandSrc := fun i => r (k + i)

/-- A random source is valid when every draw lies in `[0, 1)`, as
`random.random()` guarantees. -/
def ValidSrc (r : RandSrc) : Prop := ∀ i, 0 ≤ r i ∧ r i < 1

/-- A decision policy as the engine consumes it (the lambdas passed to
`run_game`): from the current history and the current random source it
produces the chosen action together with the number of draws consumed. -/
def Strategy : Type := List RoundRecord → RandSrc → String × Nat

/-- `self.payoff_matrix`: the four-entry dict from joint action pairs to
payoff pairs, as an association list. -/
def payoff_matrix : List ((String × String) × (Int × Int)) :=
  [((defend, noAttack), (3, 3)),
   ((defend, attack), (-2, 1)),
   ((noDefend, attack), (-8, 8)),
   ((noDefend, noAttack), (4, 4))]

/-- The mutable state of a `NetworkSecurityGame` object: `self.history`,
`self.scores['防守方']` and `self.scores['攻击方']`. -/
structure GameState where
  history : List RoundRecord
  defenderScore : Int
  attackerScore : Int
deriving Repr, DecidableEq

/-- `NetworkSecurityGame.__init__`: empty history, both scores zero. -/
def initState : GameState := { history := [], defenderScore := 0, attackerScore := 0 }

/-- Result of executing rounds: normal termination, or a `KeyError`
escaping from the payoff lookup.  Either way the session object survives;
the result carries its state. -/
inductive RunResult where
  | ok (s : GameState)
  | keyError (s : GameState)
deriving Repr, DecidableEq

/-- The session state carried by a result. -/
def RunResult.state : RunResult → GameState
  | .ok s => s
  | .keyError s => s

/-- Whether the rounds completed without a `KeyError`. -/
def RunResult.isOk : RunResult → Bool
  | .ok _ => true
  | .keyError _ => false

/-- `NetworkSecurityGame.play_round` (lines 18-35): both decisions are
computed first, consuming random draws in order (strategy_a then
strategy_b), then the payoff lookup; a `KeyError` from the lookup is
raised before any score update or history append, so the error carries
the state unchanged.  On success the scores are incremented and one
record with `round = len(history) + 1` is appended.  The `Nat` component
threads the global count of random draws consumed. -/
def play_round (strategy_a strategy_b : Strategy) (r : RandSrc) (s : GameState) (k : Nat) :
    RunResult × Nat :=
  let da := strategy_a s.history (shiftSrc r k)
  let db := strategy_b s.history (shiftSrc r (k + da.2))
  let k' := k + da.2 + db.2
  match List.lookup (da.1, db.1) payoff_matrix with
  | none => (.keyError s, k')
  | some pab =>
      (.ok { history := s.history ++
               [{ round := s.history.length + 1,
                  decisions := (da.1, db.1),
                  payoffs := pab }],
             defenderScore := s.defenderScore + pab.1,
             attackerScore := s.attackerScore + pab.2 }, k')

/-- `NetworkSecurityGame.run_game` (lines 37-40): `rounds` sequential
calls of `play_round`; an exception aborts the loop and propagates. -/
def run_game (strategy_a strategy_b : Strategy) (r : RandSrc) (s : GameState) (k : Nat) :
    Nat → RunResult × Nat
  | 0 => (.ok s, k)
  | n + 1 =>
      match play_round strategy_a strategy_b r s k with
      | (.ok s', k') => run_game strategy_a strategy_b r s' k' n
      | (.keyError s', k') => (.keyError s', k')

/-- The state of a `PassiveDefender` object (the spec's
FixedProbabilityDefender). -/
structure PassiveDefender where
  defense_prob : ℚ
deriving Repr, DecidableEq

/-- `PassiveDefender.__init__` (lines 81-82): the probability is stored
unconditionally; no validation is performed. -/
def PassiveDefender.init (defense_prob : ℚ) : PassiveDefender :=
  { defense_prob := defense_prob }

/-- `PassiveDefender.make_decision` (lines 84-85): one `random.random()`
draw; Defend iff the draw is below `defense_prob`. -/
def PassiveDefender.make_decision (p : PassiveDefender) (history : List RoundRecord)
    (r : RandSrc) : String × Nat :=
  (if r 0 < p.defense_prob then defend else noDefend, 1)

/-- The lambda `lambda h: defender.make_decision(h)` over a
`PassiveDefender`. -/
def PassiveDefender.strategy (p : PassiveDefender) : Strategy :=
  fun h r => p.make_decision h r

/-- `RandomAttacker.make_decision` (lines 89-91): one uniform draw
implements `random.choice(['攻击', '不攻击'])`, each branch with
probability 1/2. -/
def RandomAttacker.make_decision (history : List RoundRecord) (r : RandSrc) : String × Nat :=
  (if r 0 < mkRat 1 2 then attack else noAttack, 1)

/-- The lambda `lambda h: attacker.make_decision(h)` over a
`RandomAttacker`. -/
def RandomAttacker.strategy : Strategy :=
  fun h r => RandomAttacker.make_decision h r

/-- The state of an `EnhancedTitForTat` object (the spec's
AdaptiveReciprocator).  `__init__` (lines 96-100) stores the flag and the
window size unconditionally; `self.opponent_history` is initialized but
never read, and `self.role` is a derived label (`role` below). -/
structure EnhancedTitForTat where
  is_defender : Bool
  memory_size : Nat
deriving Repr, DecidableEq

/-- `EnhancedTitForTat.__init__` (lines 96-100): stores the arguments
unconditionally; no validation is performed. -/
def EnhancedTitForTat.init (is_defender : Bool) (memory_size : Nat) : EnhancedTitForTat :=
  { is_defender := is_defender, memory_size := memory_size }

/-- `self.role` as set in `__init__` (line 99). -/
def EnhancedTitForTat.role (e : EnhancedTitForTat) : String :=
  if e.is_defender then "防守方" else "攻击方"

/-- `h['decisions'][0 if not self.is_defender else 1]` (lines 107, 128):
the opponent's action inside one record. -/
def EnhancedTitForTat.opponentMove (e : EnhancedTitForTat) (rec : RoundRecord) : String :=
  if e.is_defender then rec.decisions.2 else rec.decisions.1

/-- The Python slice `history[-memory_size:]` (line 108) for a natural
`memory_size`: the last `memory_size` elements when `memory_size ≥ 1`,
the whole list when `memory_size = 0` (Python's `l[-0:]` is `l[0:]`). -/
def EnhancedTitForTat.lastSlice (memory_size : Nat) (history : List RoundRecord) :
    List RoundRecord :=
  if memory_size = 0 then history else history.drop (history.length - memory_size)

/-- The ratio computed in the body of `analyze_pattern` (lines 107-116):
the count of aggressive opponent moves in the sliced window divided by
the window length. -/
def EnhancedTitForTat.aggressiveRate (e : EnhancedTitForTat) (history : List RoundRecord) : ℚ :=
  let recent_moves := (EnhancedTitForTat.lastSlice e.memory_size history).map e.opponentMove
  let aggressive_count := recent_moves.countP fun mv =>
    (e.is_defender && decide (mv = attack)) || (!e.is_defender && decide (mv = defend))
  mkRat aggressive_count recent_moves.length

/-- `EnhancedTitForTat.analyze_pattern` (lines 102-116): `None` on an
empty history, otherwise the aggressiveness ratio over the window. -/
def EnhancedTitForTat.analyze_pattern (e : EnhancedTitForTat) (history : List RoundRecord) :
    Option ℚ :=
  if history = [] then none else some (e.aggressiveRate history)

/-- `EnhancedTitForTat.make_decision` (lines 118-142).  The deterministic
branches consume no draw (`random.random()` is only reached on the
relaxed branches); `.getD 0` is an unreachable default since
`analyze_pattern` returns a value on every non-empty history. -/
def EnhancedTitForTat.make_decision (e : EnhancedTitForTat) (history : List RoundRecord)
    (r : RandSrc) : String × Nat :=
  if hne : history = [] then
    (if e.is_defender then defend else noAttack, 0)
  else
    let aggressive_rate := (e.analyze_pattern history).getD 0
    let opponent_last_move := e.opponentMove (history.getLast hne)
    if e.is_defender then
      if opponent_last_move = attack ∨ aggressive_rate > mkRat 7 10 then (defend, 0)
      else (if r 0 < mkRat 1 5 then noDefend else defend, 1)
    else
      if opponent_last_move = noDefend ∨ aggressive_rate < mkRat 3 10 then (attack, 0)
      else (if r 0 < mkRat 4 5 then noAttack else attack, 1)

/-- The lambda `lambda h: e.make_decision(h)` over an
`EnhancedTitForTat`. -/
def EnhancedTitForTat.strategy (e : EnhancedTitForTat) : Strategy :=
  fun h r => e.make_decision h r

/-- A deterministic policy that always plays `a` and consumes no
randomness (the spec's "policies that deterministically return" a fixed
action). -/
def constStrategy (a : String) : Strategy := fun _ _ => (a, 0)

/-- A strategy whose output depends only on the draws it reports
consuming: if two sources agree on every position below the consumption
count, the strategy returns the same action and count.  All three
policies of the source satisfy this. -/
def ReadsConsumed (p : Strategy) : Prop :=
  ∀ h r r', (∀ i, i < (p h r).2 → r i = r' i) → p h r = p h r'

/-- The pair of decisions computed at the start of `play_round`. -/
def round_decisions (strategy_a strategy_b : Strategy) (r : RandSrc) (s : GameState)
    (k : Nat) : String × String :=
  let da := strategy_a s.history (shiftSrc r k)
  let db := strategy_b s.history (shiftSrc r (k + da.2))
  (da.1, db.1)

/-! ### Basic lemmas about the payoff table and the engine -/

lemma lookup_payoff_eq (d a : String) :
    List.lookup (d, a) payoff_matrix =
      if d = defend ∧ a = noAttack then some ((3 : Int), (3 : Int))
      else if d = defend ∧ a = attack then some (-2, 1)
      else if d = noDefend ∧ a = attack then some (-8, 8)
      else if d = noDefend ∧ a = noAttack then some (4, 4)
      else none := by
  by_cases h1 : (d, a) = (defend, noAttack) <;>
  by_cases h2 : (d, a) = (defend, attack) <;>
  by_cases h3 : (d, a) = (noDefend, attack) <;>
  by_cases h4 : (d, a) = (noDefend, noAttack) <;>
    simp_all [payoff_matrix, List.lookup_cons, beq_false_of_ne, Prod.mk.injEq,
      defend, noDefend, attack, noAttack]
  split_ifs with g1 g2 g3 g4 <;> simp_all

lemma lookup_payoff_isSome_iff (d a : String) :
    (List.lookup (d, a) payoff_matrix).isSome = true ↔
      ((d = defend ∨ d = noDefend) ∧ (a = attack ∨ a = noAttack)) := by
  rw [lookup_payoff_eq]
  split_ifs with g1 g2 g3 g4 <;>
    simp_all [defend, noDefend, attack, noAttack] <;> tauto

/-- One round either appends exactly one record (with the next index and a
payoff pair coming from the table) and adds its payoffs to the scores, or
raises a `KeyError` leaving the state untouched. -/
lemma play_round_cases (strategy_a strategy_b : Strategy) (r : RandSrc) (s : GameState)
    (k : Nat) :
    (∃ rec k2,
        play_round strategy_a strategy_b r s k =
          (.ok { history := s.history ++ [rec],
                 defenderScore := s.defenderScore + rec.payoffs.1,
                 attackerScore := s.attackerScore + rec.payoffs.2 }, k2) ∧
        rec.round = s.history.length + 1 ∧
        rec.decisions = round_decisions strategy_a strategy_b r s k ∧
        List.lookup rec.decisions payoff_matrix = some rec.payoffs) ∨
    (∃ k2,
        play_round strategy_a strategy_b r s k = (.keyError s, k2) ∧
        List.lookup (round_decisions strategy_a strategy_b r s k) payoff_matrix = none) := by
  unfold play_round round_decisions
  dsimp only
  split
  case h_1 heq => exact .inr ⟨_, rfl, heq⟩
  case h_2 pab heq => exact .inl ⟨⟨s.history.length + 1, _, pab⟩, _, rfl, rfl, rfl, heq⟩

/-- The draw counter returned by `play_round` is the old counter plus the
draws consumed by the two decisions. -/
lemma play_round_snd (strategy_a strategy_b : Strategy) (r : RandSrc) (s : GameState)
    (k : Nat) :
    (play_round strategy_a strategy_b r s k).2 =
      k + (strategy_a s.history (shiftSrc r k)).2 +
        (strategy_b s.history (shiftSrc r (k + (strategy_a s.history (shiftSrc r k)).2))).2 := by
  unfold play_round
  dsimp only
  split <;> rfl

/-- Unfolding equation for a successful first round inside `run_game`. -/
lemma run_game_succ_of_ok (strategy_a strategy_b : Strategy) (r : RandSrc) (s : GameState)
    (k n : Nat) (s2 : GameState) (k2 : Nat)
    (h : play_round strategy_a strategy_b r s k = (.ok s2, k2)) :
    run_game strategy_a strategy_b r s k (n + 1) = run_game strategy_a strategy_b r s2 k2 n := by
  conv_lhs => rw [run_game]
  rw [h]

/-- Unfolding equation for a failing first round inside `run_game`. -/
lemma run_game_succ_of_keyError (strategy_a strategy_b : Strategy) (r : RandSrc)
    (s : GameState) (k n : Nat) (s2 : GameState) (k2 : Nat)
    (h : play_round strategy_a strategy_b r s k = (.keyError s2, k2)) :
    run_game strategy_a strategy_b r s k (n + 1) = (.keyError s2, k2) := by
  conv_lhs => rw [run_game]
  rw [h]

/-- Structural invariant of a successful `run_game`: it appends exactly `n`
records whose indices continue the old history, and each role's score grows
by the sum of that role's per-round payoffs over the appended records. -/
lemma run_game_ok_spec (strategy_a strategy_b : Strategy) (r : RandSrc) :
    ∀ (n : Nat) (s : GameState) (k : Nat) (s' : GameState) (k' : Nat),
      run_game strategy_a strategy_b r s k n = (.ok s', k') →
      ∃ tail : List RoundRecord,
        s'.history = s.history ++ tail ∧
        tail.length = n ∧
        s'.defenderScore = s.defenderScore + (tail.map fun rec => rec.payoffs.1).sum ∧
        s'.attackerScore = s.attackerScore + (tail.map fun rec => rec.payoffs.2).sum ∧
        (∀ i (hi : i < tail.length), (tail.get ⟨i, hi⟩).round = s.history.length + i + 1) ∧
        (∀ rec ∈ tail, List.lookup rec.decisions payoff_matrix = some rec.payoffs) := by
  intro n
  induction n with
  | zero =>
      intro s k s' k' h
      injection h with h1 h2
      injection h1 with h1
      subst h1
      refine ⟨[], by simp, rfl, by simp, by simp, ?_, ?_⟩
      · intro i hi
        exact absurd hi (Nat.not_lt_zero i)
      · simp
  | succ n ih =>
      intro s k s' k' h
      rcases play_round_cases strategy_a strategy_b r s k with
        ⟨rec, k2, hpr, hround, hdec, hlook⟩ | ⟨k2, hpr, hlook⟩
      · rw [run_game_succ_of_ok _ _ _ _ _ _ _ _ hpr] at h
        rcases ih _ _ _ _ h with ⟨tail, hhist, hlen, hdscore, hascore, hidx, htbl⟩
        refine ⟨rec :: tail, ?_, ?_, ?_, ?_, ?_, ?_⟩
        · simpa [List.append_assoc] using hhist
        · simpa using hlen
        · simpa [add_assoc] using hdscore
        · simpa [add_assoc] using hascore
        · intro i hi
          cases i with
          | zero => simpa using hround
          | succ j =>
              have hj : j < tail.length := by simpa using hi
              have := hidx j hj
              simpa [Nat.add_assoc, Nat.add_comm, Nat.add_left_comm] using this
        · intro rc hrc
          rcases List.mem_cons.mp hrc with hrc | hrc
          · subst hrc; exact hlook
          · exact htbl rc hrc
      · rw [run_game_succ_of_keyError _ _ _ _ _ _ _ _ hpr] at h
        exact absurd h (by simp)

/-! ### Claim theorems -/

/-- C1: after a successful `run_game` of `N` rounds on a fresh session,
each role's cumulative score equals the arithmetic sum of that role's
per-round payoffs over the `N` records of the history; in particular the
payoff table maps (Defend, Attack) to (-2, 1), and with policies that
deterministically return (Defend, Attack) every round the scores after 3
rounds are (-6, 3). -/
theorem scores_sum_of_round_payoffs (strategy_a strategy_b : Strategy) (r : RandSrc)
    (N : Nat) (s' : GameState) (k' : Nat)
    (h : run_game strategy_a strategy_b r initState 0 N = (.ok s', k')) :
    s'.defenderScore = (s'.history.map fun rec => rec.payoffs.1).sum ∧
    s'.attackerScore = (s'.history.map fun rec => rec.payoffs.2).sum ∧
    List.lookup (defend, attack) payoff_matrix = some (-2, 1) ∧
    (run_game (constStrategy defend) (constStrategy attack) r initState 0 3).1.state.defenderScore = -6 ∧
    (run_game (constStrategy defend) (constStrategy attack) r initState 0 3).1.state.attackerScore = 3 := by
  rcases run_game_ok_spec _ _ _ N initState 0 s' k' h with ⟨tail, hhist, _, hd, ha, _, _⟩
  have hh : s'.history = tail := by simpa [initState] using hhist
  refine ⟨?_, ?_, rfl, rfl, rfl⟩
  · rw [hh]
    simpa [initState] using hd
  · rw [hh]
    simpa [initState] using ha

/-- Witness for C1 at the deterministic (Defend, Attack) policies, three
rounds, and a constant random source. -/
theorem scores_sum_of_round_payoffs_witness :
    run_game (constStrategy defend) (constStrategy attack) (fun _ => 0) initState 0 3 =
      (.ok { history := [⟨1, (defend, attack), (-2, 1)⟩, ⟨2, (defend, attack), (-2, 1)⟩,
                         ⟨3, (defend, attack), (-2, 1)⟩],
             defenderScore := -6, attackerScore := 3 }, 0) ∧
    (({ history := [⟨1, (defend, attack), (-2, 1)⟩, ⟨2, (defend, attack), (-2, 1)⟩,
                    ⟨3, (defend, attack), (-2, 1)⟩],
        defenderScore := -6, attackerScore := 3 } : GameState).defenderScore =
      (({ history := [⟨1, (defend, attack), (-2, 1)⟩, ⟨2, (defend, attack), (-2, 1)⟩,
                      ⟨3, (defend, attack), (-2, 1)⟩],
          defenderScore := -6, attackerScore := 3 } : GameState).history.map
        fun rec => rec.payoffs.1).sum ∧
     ({ history := [⟨1, (defend, attack), (-2, 1)⟩, ⟨2, (defend, attack), (-2, 1)⟩,
                    ⟨3, (defend, attack), (-2, 1)⟩],
        defenderScore := -6, attackerScore := 3 } : GameState).attackerScore =
      (({ history := [⟨1, (defend, attack), (-2, 1)⟩, ⟨2, (defend, attack), (-2, 1)⟩,
                      ⟨3, (defend, attack), (-2, 1)⟩],
          defenderScore := -6, attackerScore := 3 } : GameState).history.map
        fun rec => rec.payoffs.2).sum ∧
     List.lookup (defend, attack) payoff_matrix = some (-2, 1) ∧
     (run_game (constStrategy defend) (constStrategy attack) (fun _ => 0) initState 0
         3).1.state.defenderScore = -6 ∧
     (run_game (constStrategy defend) (constStrategy attack) (fun _ => 0) initState 0
         3).1.state.attackerScore = 3) :=
  ⟨by decide,
   scores_sum_of_round_payoffs (constStrategy defend) (constStrategy attack) (fun _ => 0) 3
     _ 0 (by decide)⟩

/-- C2: after a successful `run_game` of `N` rounds on a fresh session the
history holds exactly `N` records whose `round` indices are `1..N` in
strictly increasing order, and every successful `play_round` only appends
one record to the existing history. -/
theorem history_append_invariant (strategy_a strategy_b : Strategy) (r : RandSrc)
    (N : Nat) (s' : GameState) (k' : Nat)
    (h : run_game strategy_a strategy_b r initState 0 N = (.ok s', k')) :
    s'.history.length = N ∧
    (∀ i (hi : i < s'.history.length), (s'.history.get ⟨i, hi⟩).round = i + 1) ∧
    (∀ s k s2 k2, play_round strategy_a strategy_b r s k = (.ok s2, k2) →
      ∃ rec, s2.history = s.history ++ [rec]) := by
  rcases run_game_ok_spec _ _ _ N initState 0 s' k' h with ⟨tail, hhist, hlen, _, _, hidx, _⟩
  have hh : s'.history = tail := by simpa [initState] using hhist
  rw [← hh] at hlen hidx
  refine ⟨hlen, ?_, ?_⟩
  · intro i hi
    simpa [initState] using hidx i hi
  · intro s k s2 k2 hpr
    rcases play_round_cases strategy_a strategy_b r s k with
      ⟨rec, kk, heq, _, _, _⟩ | ⟨kk, heq, _⟩
    · rw [heq] at hpr
      injection hpr with h1 h2
      injection h1 with h1
      exact ⟨rec, by rw [← h1]⟩
    · rw [heq] at hpr
      exact absurd hpr (by simp)

/-- Witness for C2 at the deterministic (Defend, DoNotAttack) policies and
two rounds. -/
theorem history_append_invariant_witness :
    run_game (constStrategy defend) (constStrategy noAttack) (fun _ => 0) initState 0 2 =
      (.ok { history := [⟨1, (defend, noAttack), (3, 3)⟩, ⟨2, (defend, noAttack), (3, 3)⟩],
             defenderScore := 6, attackerScore := 6 }, 0) ∧
    (({ history := [⟨1, (defend, noAttack), (3, 3)⟩, ⟨2, (defend, noAttack), (3, 3)⟩],
        defenderScore := 6, attackerScore := 6 } : GameState).history.length = 2 ∧
     (∀ i (hi : i < ({ history := [⟨1, (defend, noAttack), (3, 3)⟩,
                                   ⟨2, (defend, noAttack), (3, 3)⟩],
                       defenderScore := 6, attackerScore := 6 } : GameState).history.length),
        (({ history := [⟨1, (defend, noAttack), (3, 3)⟩, ⟨2, (defend, noAttack), (3, 3)⟩],
            defenderScore := 6, attackerScore := 6 } : GameState).history.get ⟨i, hi⟩).round =
          i + 1) ∧
     (∀ s k s2 k2,
        play_round (constStrategy defend) (constStrategy noAttack) (fun _ => 0) s k =
          (.ok s2, k2) → ∃ rec, s2.history = s.history ++ [rec])) :=
  ⟨by decide,
   history_append_invariant (constStrategy defend) (constStrategy noAttack) (fun _ => 0) 2
     _ 0 (by decide)⟩

/-- C8: the payoff lookup succeeds exactly for the four combinations of
\x7bDefend, DoNotDefend\x7d × \x7bAttack, DoNotAttack\x7d, with the four
defined payoff pairs; for a key outside these four, the round aborts with
a propagating `KeyError` (state unchanged) instead of coercing to a
default payoff, and `run_game` propagates the error. -/
theorem payoff_lookup_completeness :
    (∀ d a : String, (List.lookup (d, a) payoff_matrix).isSome = true ↔
        ((d = defend ∨ d = noDefend) ∧ (a = attack ∨ a = noAttack))) ∧
    List.lookup (defend, noAttack) payoff_matrix = some (3, 3) ∧
    List.lookup (defend, attack) payoff_matrix = some (-2, 1) ∧
    List.lookup (noDefend, attack) payoff_matrix = some (-8, 8) ∧
    List.lookup (noDefend, noAttack) payoff_matrix = some (4, 4) ∧
    (∀ strategy_a strategy_b r s k,
        List.lookup (round_decisions strategy_a strategy_b r s k) payoff_matrix = none →
        ∃ k2, play_round strategy_a strategy_b r s k = (.keyError s, k2)) ∧
    (∀ strategy_a strategy_b r s k n s2 k2,
        play_round strategy_a strategy_b r s k = (.keyError s2, k2) →
        run_game strategy_a strategy_b r s k (n + 1) = (.keyError s2, k2)) := by
  refine ⟨lookup_payoff_isSome_iff, rfl, rfl, rfl, rfl, ?_, ?_⟩
  · intro sa sb r s k hnone
    rcases play_round_cases sa sb r s k with ⟨rec, kk, heq, _, hdec, hlook⟩ | ⟨kk, heq, _⟩
    · rw [hdec, hnone] at hlook
      exact absurd hlook (by simp)
    · exact ⟨kk, heq⟩
  · intro sa sb r s k n s2 k2 h
    exact run_game_succ_of_keyError _ _ _ _ _ _ _ _ h

/-- Witness for C8: a policy returning the out-of-domain string 入侵 makes
the lookup fail and the round abort with the state unchanged. -/
theorem payoff_lookup_completeness_witness :
    List.lookup
      (round_decisions (constStrategy "入侵") (constStrategy attack) (fun _ => 0) initState 0)
      payoff_matrix = none ∧
    ∃ k2, play_round (constStrategy "入侵") (constStrategy attack) (fun _ => 0) initState 0 =
      (.keyError initState, k2) :=
  ⟨by decide,
   payoff_lookup_completeness.2.2.2.2.2.1 (constStrategy "入侵") (constStrategy attack)
     (fun _ => 0) initState 0 (by decide)⟩

/-- C10: if `play_round` raises a `KeyError`, the session state is exactly
as before the call: the error happens at the lookup, before any score
update or history append, and the failing key is the computed decision
pair. -/
theorem keyError_leaves_state_unchanged (strategy_a strategy_b : Strategy) (r : RandSrc)
    (s : GameState) (k : Nat) (s' : GameState) (k' : Nat)
    (h : play_round strategy_a strategy_b r s k = (.keyError s', k')) :
    s' = s ∧ s'.history = s.history ∧ s'.defenderScore = s.defenderScore ∧
      s'.attackerScore = s.attackerScore ∧
      List.lookup (round_decisions strategy_a strategy_b r s k) payoff_matrix = none := by
  rcases play_round_cases strategy_a strategy_b r s k with
    ⟨rec, kk, heq, _, _, _⟩ | ⟨kk, heq, hlook⟩
  · rw [heq] at h
    exact absurd h (by simp)
  · rw [heq] at h
    injection h with h1 h2
    injection h1 with h1
    subst h1
    exact ⟨rfl, rfl, rfl, rfl, hlook⟩

/-- Witness for C10 at an out-of-domain attacker action and a non-empty
session state. -/
theorem keyError_leaves_state_unchanged_witness :
    play_round (constStrategy defend) (constStrategy "入侵") (fun _ => 0)
      { history := [⟨1, (defend, attack), (-2, 1)⟩], defenderScore := -2, attackerScore := 1 }
      0 =
      (.keyError { history := [⟨1, (defend, attack), (-2, 1)⟩], defenderScore := -2,
                   attackerScore := 1 }, 0) ∧
    ({ history := [⟨1, (defend, attack), (-2, 1)⟩], defenderScore := -2,
       attackerScore := 1 } : GameState) =
      { history := [⟨1, (defend, attack), (-2, 1)⟩], defenderScore := -2, attackerScore := 1 } ∧
    List.lookup
      (round_decisions (constStrategy defend) (constStrategy "入侵") (fun _ => 0)
        { history := [⟨1, (defend, attack), (-2, 1)⟩], defenderScore := -2, attackerScore := 1 }
        0) payoff_matrix = none := by
  have h := keyError_leaves_state_unchanged (constStrategy defend) (constStrategy "入侵")
    (fun _ => 0)
    { history := [⟨1, (defend, attack), (-2, 1)⟩], defenderScore := -2, attackerScore := 1 }
    0
    { history := [⟨1, (defend, attack), (-2, 1)⟩], defenderScore := -2, attackerScore := 1 }
    0 (by decide)
  exact ⟨by decide, h.1 ▸ rfl, h.2.2.2.2⟩

/-- C7: on the empty history, `EnhancedTitForTat.make_decision` returns
the cooperative baseline of its role — Defend as defender, DoNotAttack as
attacker — for every random source, consuming no draw. -/
theorem adaptive_first_round_cooperative (e : EnhancedTitForTat) (r : RandSrc) :
    e.make_decision [] r = ((if e.is_defender then defend else noAttack), 0) := by
  simp [EnhancedTitForTat.make_decision]

/-- C5: whenever the most recent record's attacker action is Attack, the
defender-role `EnhancedTitForTat` returns Defend for every random source,
consuming no draw (the relaxed branch, the only one reading randomness,
is not taken). -/
theorem defender_holds_after_attack (e : EnhancedTitForTat) (history : List RoundRecord)
    (hne : history ≠ []) (hdef : e.is_defender = true)
    (hlast : (history.getLast hne).decisions.2 = attack) (r : RandSrc) :
    e.make_decision history r = (defend, 0) := by
  simp [EnhancedTitForTat.make_decision, hne, hdef, EnhancedTitForTat.opponentMove, hlast]

/-- Witness for C5 at a one-record history ending in an attack, with an
arbitrary constant random source. -/
theorem defender_holds_after_attack_witness :
    ([(⟨1, (defend, attack), (-2, 1)⟩ : RoundRecord)] ≠ []) ∧
    (EnhancedTitForTat.init true 3).is_defender = true ∧
    (EnhancedTitForTat.init true 3).make_decision [⟨1, (defend, attack), (-2, 1)⟩]
      (fun _ => 0) = (defend, 0) := by
  refine ⟨by decide, rfl, ?_⟩
  exact defender_holds_after_attack (EnhancedTitForTat.init true 3)
    [⟨1, (defend, attack), (-2, 1)⟩] (by decide) rfl (by decide) (fun _ => 0)

/-- C6: on a non-empty history with a positive window,
`analyze_pattern` returns the count of aggressive opponent actions within
the last `min memory_size history.length` records divided by that same
window size — the window is never padded beyond the available records. -/
theorem windowed_aggressive_rate (e : EnhancedTitForTat) (history : List RoundRecord)
    (hm : 1 ≤ e.memory_size) (hne : history ≠ []) :
    e.analyze_pattern history =
      some (((((history.drop (history.length - min e.memory_size history.length)).map
            e.opponentMove).countP fun mv =>
              (e.is_defender && decide (mv = attack)) ||
                (!e.is_defender && decide (mv = defend))) : ℚ) /
          ((min e.memory_size history.length : Nat) : ℚ)) := by
  have hm0 : ¬e.memory_size = 0 := by omega
  have hmin : history.length - e.memory_size =
      history.length - min e.memory_size history.length := by omega
  unfold EnhancedTitForTat.analyze_pattern EnhancedTitForTat.aggressiveRate
    EnhancedTitForTat.lastSlice
  rw [if_neg hne, if_neg hm0, hmin]
  have hlen : ((history.drop (history.length - min e.memory_size history.length)).map
      e.opponentMove).length = min e.memory_size history.length := by
    simp [List.length_drop]
    omega
  dsimp only
  rw [hlen]
  rw [Rat.mkRat_eq_divInt, Rat.divInt_eq_div]
  push_cast
  rfl

/-- Witness for C6: window 3 over a history of length 2 uses all 2
available records -- both opponent actions are Attack, so the rate is
2 / 2. -/
theorem windowed_aggressive_rate_witness :
    1 ≤ (EnhancedTitForTat.init true 3).memory_size ∧
    ([(⟨1, (defend, attack), (-2, 1)⟩ : RoundRecord),
      ⟨2, (noDefend, attack), (-8, 8)⟩] ≠ []) ∧
    (EnhancedTitForTat.init true 3).analyze_pattern
        [⟨1, (defend, attack), (-2, 1)⟩, ⟨2, (noDefend, attack), (-8, 8)⟩] =
      some ((2 : ℚ) / (2 : ℚ)) := by
  refine ⟨by decide, by decide, ?_⟩
  have h := windowed_aggressive_rate (EnhancedTitForTat.init true 3)
    [⟨1, (defend, attack), (-2, 1)⟩, ⟨2, (noDefend, attack), (-8, 8)⟩]
    (by decide) (by decide)
  rw [h]
  norm_num [EnhancedTitForTat.init, EnhancedTitForTat.opponentMove, List.countP,
    List.countP.go, attack, defend, noDefend, noAttack]

/-- Counterexample to C3: constructing a `PassiveDefender` with the
out-of-range probability 3/2, or an `EnhancedTitForTat` with window 0,
succeeds — the constructor stores the parameter verbatim and the first
call of the decision function also succeeds, so no configuration error is
raised at construction or at first use. -/
theorem construction_accepts_invalid_config :
    PassiveDefender.init (mkRat 3 2) = { defense_prob := mkRat 3 2 } ∧
    ¬(mkRat 3 2 ≤ 1) ∧
    (PassiveDefender.init (mkRat 3 2)).make_decision [] (fun _ => 0) = (defend, 1) ∧
    EnhancedTitForTat.init true 0 = { is_defender := true, memory_size := 0 } ∧
    (EnhancedTitForTat.init true 0).make_decision [] (fun _ => 0) = (defend, 0) :=
  ⟨rfl, by decide, by decide, rfl, by decide⟩

/-- C3 amended: construction never rejects a configuration — both
constructors are total, store their parameters verbatim for every
probability and window size, and the first use of the decision function
succeeds, returning an action from the role's domain. -/
theorem construction_stores_config (p : ℚ) (b : Bool) (m : Nat) (r : RandSrc) :
    (PassiveDefender.init p).defense_prob = p ∧
    (EnhancedTitForTat.init b m).is_defender = b ∧
    (EnhancedTitForTat.init b m).memory_size = m ∧
    (((PassiveDefender.init p).make_decision [] r).1 = defend ∨
      ((PassiveDefender.init p).make_decision [] r).1 = noDefend) ∧
    ((PassiveDefender.init p).make_decision [] r).2 = 1 ∧
    (EnhancedTitForTat.init b m).make_decision [] r = ((if b then defend else noAttack), 0) := by
  refine ⟨rfl, rfl, rfl, ?_, rfl, ?_⟩
  · by_cases h : r 0 < p
    · exact .inl (by simp [PassiveDefender.make_decision, PassiveDefender.init, h])
    · exact .inr (by simp [PassiveDefender.make_decision, PassiveDefender.init, h])
  · simp [EnhancedTitForTat.make_decision, EnhancedTitForTat.init]


/-- Induction helper for the always-defend scenario: a `PassiveDefender`
with probability 1 against `RandomAttacker` always completes its rounds,
every appended record has the defender playing Defend with payoffs from
\x7b(3,3), (-2,1)\x7d, and the defender score drops by at most 2 per
round. -/
lemma passive_one_vs_random (r : RandSrc) (hr : ValidSrc r) :
    ∀ (n : Nat) (s : GameState) (k : Nat),
      ∃ s' k',
        run_game (PassiveDefender.init 1).strategy RandomAttacker.strategy r s k n =
          (.ok s', k') ∧
        ∃ tail, s'.history = s.history ++ tail ∧
          (∀ rec ∈ tail, rec.decisions.1 = defend ∧
            (rec.payoffs = ((3 : Int), (3 : Int)) ∨ rec.payoffs = (-2, 1))) ∧
          s.defenderScore - 2 * (n : Int) ≤ s'.defenderScore := by
  intro n
  induction n with
  | zero =>
      intro s k
      exact ⟨s, k, rfl, [], by simp, by simp, by simp⟩
  | succ n ih =>
      intro s k
      have hda : (PassiveDefender.init 1).strategy s.history (shiftSrc r k) = (defend, 1) := by
        have hk := (hr k).2
        have : shiftSrc r k 0 < (1 : ℚ) := by
          show r (k + 0) < 1
          simpa using hk
        simp [PassiveDefender.strategy, PassiveDefender.make_decision, PassiveDefender.init, this]
      have hdb : RandomAttacker.strategy s.history (shiftSrc r (k + 1)) = (attack, 1) ∨
          RandomAttacker.strategy s.history (shiftSrc r (k + 1)) = (noAttack, 1) := by
        unfold RandomAttacker.strategy RandomAttacker.make_decision
        by_cases h : shiftSrc r (k + 1) 0 < mkRat 1 2
        · exact .inl (by rw [if_pos h])
        · exact .inr (by rw [if_neg h])
      have hstep : ∀ act : String, ∀ pay : Int × Int,
          RandomAttacker.strategy s.history (shiftSrc r (k + 1)) = (act, 1) →
          List.lookup (defend, act) payoff_matrix = some pay →
          play_round (PassiveDefender.init 1).strategy RandomAttacker.strategy r s k =
            (.ok { history := s.history ++
                     [{ round := s.history.length + 1, decisions := (defend, act),
                        payoffs := pay }],
                   defenderScore := s.defenderScore + pay.1,
                   attackerScore := s.attackerScore + pay.2 }, k + 1 + 1) := by
        intro act pay hact hlk
        unfold play_round
        rw [hda]
        dsimp only
        rw [hact]
        dsimp only
        rw [hlk]
      rcases hdb with hdb | hdb
      · have hpr := hstep attack (-2, 1) hdb (by decide)
        obtain ⟨s', k', hrun, tail, hh, hrecs, hscore⟩ := ih
          { history := s.history ++
              [{ round := s.history.length + 1, decisions := (defend, attack),
                 payoffs := (-2, 1) }],
            defenderScore := s.defenderScore + (-2),
            attackerScore := s.attackerScore + 1 } (k + 1 + 1)
        refine ⟨s', k', ?_,
          ((⟨s.history.length + 1, (defend, attack), (-2, 1)⟩ : RoundRecord) :: tail),
          ?_, ?_, ?_⟩
        · rw [run_game_succ_of_ok _ _ _ _ _ _ _ _ hpr]
          exact hrun
        · rw [hh]; simp
        · intro rec hrec
          rcases List.mem_cons.mp hrec with hrec | hrec
          · subst hrec; exact ⟨rfl, .inr rfl⟩
          · exact hrecs rec hrec
        · dsimp at hscore
          omega
      · have hpr := hstep noAttack (3, 3) hdb (by decide)
        obtain ⟨s', k', hrun, tail, hh, hrecs, hscore⟩ := ih
          { history := s.history ++
              [{ round := s.history.length + 1, decisions := (defend, noAttack),
                 payoffs := (3, 3) }],
            defenderScore := s.defenderScore + 3,
            attackerScore := s.attackerScore + 3 } (k + 1 + 1)
        refine ⟨s', k', ?_,
          ((⟨s.history.length + 1, (defend, noAttack), (3, 3)⟩ : RoundRecord) :: tail),
          ?_, ?_, ?_⟩
        · rw [run_game_succ_of_ok _ _ _ _ _ _ _ _ hpr]
          exact hrun
        · rw [hh]; simp
        · intro rec hrec
          rcases List.mem_cons.mp hrec with hrec | hrec
          · subst hrec; exact ⟨rfl, .inl rfl⟩
          · exact hrecs rec hrec
        · dsimp at hscore
          omega


/-- C4 (amended): `PassiveDefender` with probability 1 against
`UniformRandomAttacker` over any prefix of the 10 rounds: the defender
chooses Defend every round, every per-round payoff pair is (3,3) or
(-2,1), and for every attacker action sequence the defender running
total is bounded below by -20.  (The cumulative score is NOT always
non-negative; see the counterexample.) -/
theorem full_defense_bounded_score (r : RandSrc) (hr : ValidSrc r) (M : Nat)
    (hM : M ≤ 10) :
    ∃ s' k',
      run_game (PassiveDefender.init 1).strategy RandomAttacker.strategy r initState 0 M =
        (.ok s', k') ∧
      (∀ rec ∈ s'.history, rec.decisions.1 = defend ∧
        (rec.payoffs = ((3 : Int), (3 : Int)) ∨ rec.payoffs = (-2, 1))) ∧
      -20 ≤ s'.defenderScore := by
  obtain ⟨s', k', hrun, tail, hh, hrecs, hscore⟩ := passive_one_vs_random r hr M initState 0
  refine ⟨s', k', hrun, ?_, ?_⟩
  · intro rec hrec
    apply hrecs
    rw [hh] at hrec
    simpa [initState] using hrec
  · simp only [initState] at hscore
    omega

/-- Counterexample to C4 as stated: with valid draws that make the
attacker attack all 10 rounds, the defender finishes at -20, which is
negative -- so the cumulative defender score is not non-negative for
every attack sequence. -/
theorem full_defense_can_go_negative :
    (run_game (PassiveDefender.init 1).strategy RandomAttacker.strategy
        (fun _ => mkRat 1 4) initState 0 10).1 =
      .ok { history := (List.range 10).map fun i =>
              { round := i + 1, decisions := (defend, attack), payoffs := (-2, 1) },
            defenderScore := -20, attackerScore := 10 } ∧
    (0 ≤ mkRat 1 4 ∧ mkRat 1 4 < 1) ∧
    ¬(0 ≤ (-20 : Int)) := by
  refine ⟨by decide, by decide, by decide⟩

/-- Witness for C4 at a concrete valid random source and the full 10
rounds. -/
theorem full_defense_bounded_score_witness :
    ∃ s' k',
      run_game (PassiveDefender.init 1).strategy RandomAttacker.strategy (fun _ => 0)
        initState 0 10 = (.ok s', k') ∧
      (∀ rec ∈ s'.history, rec.decisions.1 = defend ∧
        (rec.payoffs = ((3 : Int), (3 : Int)) ∨ rec.payoffs = (-2, 1))) ∧
      -20 ≤ s'.defenderScore :=
  full_defense_bounded_score (fun _ => 0) (fun i => ⟨by norm_num, by norm_num⟩) 10
    (by norm_num)


/-- The draw counter never decreases across `run_game`. -/
lemma run_game_counter_le (strategy_a strategy_b : Strategy) (r : RandSrc) :
    ∀ (n : Nat) (s : GameState) (k : Nat), k ≤ (run_game strategy_a strategy_b r s k n).2 := by
  intro n
  induction n with
  | zero => intro s k; exact Nat.le_refl k
  | succ n ih =>
      intro s k
      have hsnd := play_round_snd strategy_a strategy_b r s k
      rcases hc : play_round strategy_a strategy_b r s k with ⟨res, k2⟩
      rw [hc] at hsnd
      dsimp only at hsnd
      cases res with
      | ok s2 =>
          rw [run_game_succ_of_ok _ _ _ _ _ _ _ _ hc]
          have := ih s2 k2
          omega
      | keyError s2 =>
          rw [run_game_succ_of_keyError _ _ _ _ _ _ _ _ hc]
          dsimp only
          omega

/-- The counter after the first round is at most the counter after the
whole run. -/
lemma play_round_counter_le_run_game (strategy_a strategy_b : Strategy) (r : RandSrc)
    (n : Nat) (s : GameState) (k : Nat) :
    (play_round strategy_a strategy_b r s k).2 ≤
      (run_game strategy_a strategy_b r s k (n + 1)).2 := by
  rcases hc : play_round strategy_a strategy_b r s k with ⟨res, k2⟩
  cases res with
  | ok s2 =>
      rw [run_game_succ_of_ok _ _ _ _ _ _ _ _ hc]
      exact run_game_counter_le strategy_a strategy_b r n s2 k2
  | keyError s2 =>
      rw [run_game_succ_of_keyError _ _ _ _ _ _ _ _ hc]

/-- A round behaves identically under two random sources that agree on
the draws it actually consumes. -/
lemma play_round_congr (strategy_a strategy_b : Strategy)
    (ha : ReadsConsumed strategy_a) (hb : ReadsConsumed strategy_b)
    (r r' : RandSrc) (s : GameState) (k : Nat)
    (hagree : ∀ i, k ≤ i → i < (play_round strategy_a strategy_b r s k).2 → r i = r' i) :
    play_round strategy_a strategy_b r s k = play_round strategy_a strategy_b r' s k := by
  have hsnd := play_round_snd strategy_a strategy_b r s k
  have hda : strategy_a s.history (shiftSrc r k) = strategy_a s.history (shiftSrc r' k) := by
    apply ha
    intro i hi
    show r (k + i) = r' (k + i)
    exact hagree (k + i) (by omega) (by omega)
  have hdb : strategy_b s.history
        (shiftSrc r (k + (strategy_a s.history (shiftSrc r k)).2)) =
      strategy_b s.history (shiftSrc r' (k + (strategy_a s.history (shiftSrc r k)).2)) := by
    apply hb
    intro i hi
    show r (k + (strategy_a s.history (shiftSrc r k)).2 + i) =
      r' (k + (strategy_a s.history (shiftSrc r k)).2 + i)
    exact hagree _ (by omega) (by omega)
  unfold play_round
  dsimp only
  rw [← hda, ← hdb]

/-- A whole run behaves identically under two random sources that agree
on every consumed draw. -/
lemma run_game_congr (strategy_a strategy_b : Strategy)
    (ha : ReadsConsumed strategy_a) (hb : ReadsConsumed strategy_b) (r r' : RandSrc) :
    ∀ (n : Nat) (s : GameState) (k : Nat),
      (∀ i, k ≤ i → i < (run_game strategy_a strategy_b r s k n).2 → r i = r' i) →
      run_game strategy_a strategy_b r s k n = run_game strategy_a strategy_b r' s k n := by
  intro n
  induction n with
  | zero => intro s k _; rfl
  | succ n ih =>
      intro s k hagree
      have hpp : play_round strategy_a strategy_b r s k =
          play_round strategy_a strategy_b r' s k := by
        apply play_round_congr strategy_a strategy_b ha hb
        intro i hk hi
        exact hagree i hk
          (lt_of_lt_of_le hi (play_round_counter_le_run_game strategy_a strategy_b r n s k))
      rcases hc : play_round strategy_a strategy_b r s k with ⟨res, k2⟩
      have hc' : play_round strategy_a strategy_b r' s k = (res, k2) := by
        rw [← hpp]; exact hc
      have hsnd := play_round_snd strategy_a strategy_b r s k
      rw [hc] at hsnd
      dsimp only at hsnd
      cases res with
      | ok s2 =>
          rw [run_game_succ_of_ok _ _ _ _ _ _ _ _ hc,
              run_game_succ_of_ok _ _ _ _ _ _ _ _ hc']
          apply ih
          intro i hk2 hi
          refine hagree i (by omega) ?_
          rw [run_game_succ_of_ok _ _ _ _ _ _ _ _ hc]
          exact hi
      | keyError s2 =>
          rw [run_game_succ_of_keyError _ _ _ _ _ _ _ _ hc,
              run_game_succ_of_keyError _ _ _ _ _ _ _ _ hc']

/-- A constant policy reads no randomness. -/
lemma constStrategy_readsConsumed (a : String) : ReadsConsumed (constStrategy a) := by
  intro h r r' _
  rfl

/-- `PassiveDefender` reads exactly the one draw it reports. -/
lemma passiveDefender_readsConsumed (p : PassiveDefender) : ReadsConsumed p.strategy := by
  intro h r r' hag
  have h0 : r 0 = r' 0 := hag 0 (by simp [PassiveDefender.strategy, PassiveDefender.make_decision])
  simp [PassiveDefender.strategy, PassiveDefender.make_decision, h0]

/-- `RandomAttacker` reads exactly the one draw it reports. -/
lemma randomAttacker_readsConsumed : ReadsConsumed RandomAttacker.strategy := by
  intro h r r' hag
  have h0 : r 0 = r' 0 := hag 0 (by simp [RandomAttacker.strategy, RandomAttacker.make_decision])
  simp [RandomAttacker.strategy, RandomAttacker.make_decision, h0]

/-- `EnhancedTitForTat` reads exactly the draws it reports consuming:
none on the deterministic branches, one on the relaxed branches. -/
lemma enhancedTitForTat_readsConsumed (e : EnhancedTitForTat) : ReadsConsumed e.strategy := by
  intro h r r' hag
  by_cases hne : h = []
  · simp [EnhancedTitForTat.strategy, EnhancedTitForTat.make_decision, hne]
  · by_cases hd : e.is_defender
    · by_cases hc : e.opponentMove (h.getLast hne) = attack ∨
          ((e.analyze_pattern h).getD 0) > mkRat 7 10
      · simp [EnhancedTitForTat.strategy, EnhancedTitForTat.make_decision, hne, hd, hc]
      · have h2 : (e.strategy h r).2 = 1 := by
          simp [EnhancedTitForTat.strategy, EnhancedTitForTat.make_decision, hne, hd, hc]
        have h0 : r 0 = r' 0 := hag 0 (by rw [h2]; exact Nat.zero_lt_one)
        simp [EnhancedTitForTat.strategy, EnhancedTitForTat.make_decision, hne, hd, hc, h0]
    · by_cases hc : e.opponentMove (h.getLast hne) = noDefend ∨
          ((e.analyze_pattern h).getD 0) < mkRat 3 10
      · simp [EnhancedTitForTat.strategy, EnhancedTitForTat.make_decision, hne, hd, hc]
      · have h2 : (e.strategy h r).2 = 1 := by
          simp [EnhancedTitForTat.strategy, EnhancedTitForTat.make_decision, hne, hd, hc]
        have h0 : r 0 = r' 0 := hag 0 (by rw [h2]; exact Nat.zero_lt_one)
        simp [EnhancedTitForTat.strategy, EnhancedTitForTat.make_decision, hne, hd, hc, h0]

/-- C9: a session outcome is a deterministic function of the policies,
the round count and the random-source state: for policies that depend
only on their consumed draws (as all policies of the source do -- the
remaining conjuncts), two runs whose random sources agree on every draw
consumed by the first run produce identical results (history, scores,
and final counter); in particular two runs from the same source state
coincide. -/
theorem session_outcome_deterministic :
    (∀ strategy_a strategy_b, ReadsConsumed strategy_a → ReadsConsumed strategy_b →
        ∀ (N : Nat) (r r' : RandSrc),
          (∀ i, i < (run_game strategy_a strategy_b r initState 0 N).2 → r i = r' i) →
          run_game strategy_a strategy_b r initState 0 N =
            run_game strategy_a strategy_b r' initState 0 N) ∧
    (∀ p : PassiveDefender, ReadsConsumed p.strategy) ∧
    ReadsConsumed RandomAttacker.strategy ∧
    (∀ e : EnhancedTitForTat, ReadsConsumed e.strategy) ∧
    (∀ a : String, ReadsConsumed (constStrategy a)) := by
  refine ⟨?_, passiveDefender_readsConsumed, randomAttacker_readsConsumed,
    enhancedTitForTat_readsConsumed, constStrategy_readsConsumed⟩
  intro sa sb ha hb N r r' hagree
  exact run_game_congr sa sb ha hb r r' N initState 0 (fun i _ hi => hagree i hi)

/-- Witness for C9: a 2-round PassiveDefender-vs-RandomAttacker session
consumes 4 draws, and a source differing only from position 4 onwards
reproduces the identical run. -/
theorem session_outcome_deterministic_witness :
    run_game (PassiveDefender.init (mkRat 1 2)).strategy RandomAttacker.strategy
        (fun _ => mkRat 1 3) initState 0 2 =
      run_game (PassiveDefender.init (mkRat 1 2)).strategy RandomAttacker.strategy
        (fun i => if i < 4 then mkRat 1 3 else mkRat 9 10) initState 0 2 := by
  apply session_outcome_deterministic.1
  · exact passiveDefender_readsConsumed _
  · exact randomAttacker_readsConsumed
  · intro i hi
    have h4 : (run_game (PassiveDefender.init (mkRat 1 2)).strategy RandomAttacker.strategy
        (fun _ => mkRat 1 3) initState 0 2).2 = 4 := by decide
    rw [h4] at hi
    simp [hi]


end GameTheoryNetwork
